import Mathlib

/-!
Shallow embedding of the vlmc timeline rendering engine
(src/Workflow/TrackWorkflow.cpp and src/Workflow/VideoClipWorkflow.cpp),
with theorems checking the natural-language specification claims.

The `ClipWorkflow` base class, `ClipHelper`, `StackedBuffer` and the class
headers are not part of the provided sources; where their behaviour decides
a claim they are modelled from the spec and marked as such in doc comments.
-/

namespace Vlmc

/-- States of the ClipWorkflow state machine (spec section 4.2; used by
TrackWorkflow.cpp via `cw->getState()`). -/
inductive ClipState
  | Stopped
  | Initializing
  | Ready
  | Rendering
  | Paused
  | PauseRequired
  | UnpauseRequired
  | EndReached
  | Muted
  | Error
deriving DecidableEq, Repr

/-- Consumption modes of `ClipWorkflow::getOutput` (Pop dequeues, Get peeks). -/
inductive GetMode
  | Pop
  | Get
deriving DecidableEq, Repr

/-- Modelled from the spec: the `ClipHelper` placement record (trim begin
offset into the source media, clip length in frames, identifying uuid);
its header is not among the provided sources.  Uuids are modelled as `Nat`. -/
structure ClipHelper where
  uuid : Nat
  trimBegin : Int
  length : Int
deriving DecidableEq, Repr

/-- Modelled from the spec: the per-clip data the TrackWorkflow scheduler
reads (`ClipWorkflow` base class is not among the provided sources): the
helper, the state-machine state, the resync-required flag, the media fps
(modelled as an exact rational) and whether decoder initialization succeeds
(the value `waitForCompleteInit` would return). -/
structure ClipWorkflow where
  helper : ClipHelper
  state : ClipState
  resyncRequired : Bool
  fps : ℚ
  initWorks : Bool
deriving DecidableEq, Repr

/-- An abstract frame buffer, identified by the uuid of the clip whose
render produced it. -/
structure Buffer where
  uuid : Nat
deriving DecidableEq, Repr

/-- The TrackWorkflow fields relevant to the claims: the ordered clip
mapping (QMap keyed by start frame, modelled as a key-sorted association
list), the cached track length `m_length`, the last rendered sub-frame
`m_lastFrame` and the one-shot `m_renderOneFrame` flag. -/
structure TrackWorkflow where
  clips : List (Int × ClipWorkflow)
  m_length : Int
  m_lastFrame : Int
  m_renderOneFrame : Bool
deriving DecidableEq, Repr

/-- QMap::insert: inserts at the key position, replacing the value if the
key is already present (embedding of `m_clips.insert( start, cw )` and of
`m_clips[startingFrame] = cw`). -/
def mapInsert (k : Int) (v : ClipWorkflow) : List (Int × ClipWorkflow) → List (Int × ClipWorkflow)
  | [] => [(k, v)]
  | (k2, v2) :: rest =>
    if k < k2 then (k, v) :: (k2, v2) :: rest
    else if k = k2 then (k, v) :: rest
    else (k2, v2) :: mapInsert k v rest

/-- QMap lookup by key. -/
def mapLookup (l : List (Int × ClipWorkflow)) (k : Int) : Option ClipWorkflow :=
  match l with
  | [] => none
  | (k2, v) :: rest => if k = k2 then some v else mapLookup rest k

/-- Erase the first entry (in key order) whose clip helper has the given
uuid; embedding of the find-and-erase loops of `moveClip`, `removeClip`
and `removeClipWorkflow`. -/
def eraseFirstUuid (uuid : Nat) : List (Int × ClipWorkflow) → List (Int × ClipWorkflow)
  | [] => []
  | (k, v) :: rest =>
    if v.helper.uuid = uuid then rest
    else (k, v) :: eraseFirstUuid uuid rest

/-- TrackWorkflow::computeLength: 0 when the mapping is empty, otherwise
the key of the last map entry (greatest start frame) plus that clip helper
length (`it = m_clips.end() - 1; m_length = it.key() + it.value()->getClipHelper()->length()`). -/
def computeLength (clips : List (Int × ClipWorkflow)) : Int :=
  match clips.getLast? with
  | none => 0
  | some (k, cw) => k + cw.helper.length

/-- TrackWorkflow::getLength: returns the cached `m_length`. -/
def TrackWorkflow.getLength (t : TrackWorkflow) : Int :=
  t.m_length

/-- TrackWorkflow::addClip: insert the clip workflow at `start` and
recompute the track length. -/
def addClip (t : TrackWorkflow) (cw : ClipWorkflow) (start : Int) : TrackWorkflow :=
  let clips2 := mapInsert start cw t.clips
  { t with clips := clips2, m_length := computeLength clips2 }

/-- TrackWorkflow::removeClip: erase the first entry whose helper uuid
matches, recompute the length; when no entry matches the mapping and the
length are left untouched (the source returns NULL). -/
def removeClip (t : TrackWorkflow) (uuid : Nat) : TrackWorkflow :=
  if (t.clips.any fun p => p.2.helper.uuid = uuid) then
    let clips2 := eraseFirstUuid uuid t.clips
    { t with clips := clips2, m_length := computeLength clips2 }
  else t

/-- Modelled from the spec: `ClipWorkflow::requireResync` sets the
resync-required flag (the base class is not among the provided sources). -/
def requireResync (cw : ClipWorkflow) : ClipWorkflow :=
  { cw with resyncRequired := true }

/-- TrackWorkflow::moveClip: erase the first entry whose helper uuid
matches, re-insert its clip workflow at `startingFrame`
(`m_clips[startingFrame] = cw`, which replaces any entry at that key),
mark it resync-required and recompute the length; a missing uuid is a
logged no-op. -/
def moveClip (t : TrackWorkflow) (uuid : Nat) (startingFrame : Int) : TrackWorkflow :=
  match t.clips.find? (fun p => p.2.helper.uuid = uuid) with
  | none => t
  | some p =>
    let clips2 := mapInsert startingFrame (requireResync p.2) (eraseFirstUuid uuid t.clips)
    { t with clips := clips2, m_length := computeLength clips2 }

/-- TrackWorkflow::clear: drop every clip and set the length to 0. -/
def clear (t : TrackWorkflow) : TrackWorkflow :=
  { t with clips := [], m_length := 0 }

/-- TrackWorkflow::stopClipWorkflow: reads the clip state; when it is
Stopped, Muted or Error it returns without calling `cw->stop()`, otherwise
it calls `cw->stop()` (modelled from the spec as the transition
`any --stop()--> Stopped`).  The boolean records whether `stop()` was
invoked. -/
def stopClipWorkflow (cw : ClipWorkflow) : ClipWorkflow × Bool :=
  if cw.state = ClipState.Stopped ∨ cw.state = ClipState.Muted ∨ cw.state = ClipState.Error then
    (cw, false)
  else
    ({ cw with state := ClipState.Stopped }, true)

/-- TrackWorkflow::checkEnd: true for an empty mapping; otherwise looks at
the last map entry (greatest start frame): end is reached when that clip is
in Error state or `length + key < currentFrame`. -/
def checkEnd (t : TrackWorkflow) (currentFrame : Int) : Bool :=
  match t.clips.getLast? with
  | none => true
  | some (k, cw) =>
    cw.state = ClipState.Error || decide (cw.helper.length + k < currentFrame)

/-- Keys strictly increase pairwise: the QMap ordering invariant of the
clip mapping (each key unique, iteration in ascending key order). -/
def keysSortedB : List (Int × ClipWorkflow) → Bool
  | [] => true
  | a :: rest => (rest.all fun b => a.1 < b.1) && keysSortedB rest

/-- Adjacent clips do not overlap: each clip ends at or before the next
clip starts (the track-authoring invariant of spec section 3). -/
def nonOverlapB : List (Int × ClipWorkflow) → Bool
  | a :: b :: rest => (decide (a.1 + a.2.helper.length ≤ b.1)) && nonOverlapB (b :: rest)
  | _ => true

/-- Every start frame and every clip helper length is nonnegative. -/
def clipsNonnegB (l : List (Int × ClipWorkflow)) : Bool :=
  l.all fun p => decide (0 ≤ p.1) && decide (0 ≤ p.2.helper.length)

/-- The quantity named by the spec: the maximum of start + length over all
clips, 0 when there are none. -/
def maxEnd (l : List (Int × ClipWorkflow)) : Int :=
  l.foldr (fun p acc => max (p.1 + p.2.helper.length) acc) 0

/-- The cached track length agrees with `computeLength` over the current
mapping. -/
def lengthInv (t : TrackWorkflow) : Prop :=
  t.m_length = computeLength t.clips

instance (t : TrackWorkflow) : Decidable (lengthInv t) := by
  unfold lengthInv; infer_instance

/-- Truncation of a rational toward zero: the conversion a C++ `double`
undergoes when assigned to a `qint64`. -/
def cppTrunc (q : ℚ) : Int :=
  if 0 ≤ q then ⌊q⌋ else ⌈q⌉

/-- TrackWorkflow::adjustClipTime: computes
`nbMs = (currentFrame - start) / fps * 1000`,
`beginInMs = helper.begin() / fps * 1000` (each truncated to a `qint64`)
and returns `beginInMs + nbMs`, the milliseconds passed to `cw->setTime`. -/
def adjustClipTime (currentFrame start : Int) (cw : ClipWorkflow) : Int :=
  let nbMs := cppTrunc (((currentFrame - start : Int) : ℚ) / cw.fps * 1000)
  let beginInMs := cppTrunc ((cw.helper.trimBegin : ℚ) / cw.fps * 1000)
  beginInMs + nbMs

/-- Observable actions a `renderClip` call performs on a clip workflow, in
order: a seek (`cw->setTime(ms)`), an output request (`cw->getOutput(mode)`)
or a decoder initialization (`cw->initialize()`). -/
inductive Event
  | setTime (ms : Int)
  | getOut (mode : GetMode)
  | initClip
deriving DecidableEq, Repr

/-- Modelled from the spec: `ClipWorkflow::setTime` issues the seek and
clears the resync-required flag (base class not among the provided
sources). -/
def setTime (cw : ClipWorkflow) : ClipWorkflow :=
  { cw with resyncRequired := false }

/-- The buffer an active clip workflow hands out, identified by the clip
uuid (the clip-level queue mechanics are modelled separately by
`PoolState`). -/
def cwOutput (cw : ClipWorkflow) : Buffer :=
  { uuid := cw.helper.uuid }

/-- TrackWorkflow::renderClip: dispatch on the clip state.
Active states (Rendering/Paused/PauseRequired/UnpauseRequired): adjust the
clip time first when resync is required or repositioning is needed, then
fetch output with mode Pop unless paused without a one-shot frame request,
in which case Get.  Stopped: initialize; a failed init returns NULL;
otherwise adjust the time when the placed position differs from the
current frame by more than one or the trim begin is nonzero, then fetch
output.  EndReached/Muted/Error (and the unexpected transitional states):
return NULL.  Returns the produced buffer, the updated clip workflow and
the ordered list of events issued to the clip. -/
def renderClip (cw : ClipWorkflow) (currentFrame start : Int)
    (needRepositioning renderOneFrame paused : Bool) :
    Option Buffer × ClipWorkflow × List Event :=
  let mode := if paused = false || renderOneFrame = true then GetMode.Pop else GetMode.Get
  if cw.state = ClipState.Rendering ∨ cw.state = ClipState.Paused ∨
     cw.state = ClipState.PauseRequired ∨ cw.state = ClipState.UnpauseRequired then
    if cw.resyncRequired = true ∨ needRepositioning = true then
      let ms := adjustClipTime currentFrame start cw
      let cw2 := setTime cw
      (some (cwOutput cw2), cw2, [Event.setTime ms, Event.getOut mode])
    else
      (some (cwOutput cw), cw, [Event.getOut mode])
  else if cw.state = ClipState.Stopped then
    if cw.initWorks = false then
      (none, { cw with state := ClipState.Error }, [Event.initClip])
    else if 1 < |start - currentFrame| ∨ cw.helper.trimBegin ≠ 0 then
      let ms := adjustClipTime currentFrame start cw
      let cw2 := { setTime cw with state := ClipState.Rendering }
      (some (cwOutput cw2), cw2, [Event.initClip, Event.setTime ms, Event.getOut mode])
    else
      let cw2 := { cw with state := ClipState.Rendering }
      (some (cwOutput cw2), cw2, [Event.initClip, Event.getOut mode])
  else
    (none, cw, [])

/-- TrackWorkflow::nbFrameBeforePreload.  Modelled from the spec: a fixed
small frame count (tens of frames); the class header holding the constant
is not among the provided sources. -/
def nbFrameBeforePreload : Int := 60

/-- TrackWorkflow::preloadClip: initialize the clip workflow when it is
Stopped, otherwise leave it alone (`initialize()` starts the asynchronous
transition to Initializing, modelled from the spec). -/
def preloadClip (cw : ClipWorkflow) : ClipWorkflow :=
  if cw.state = ClipState.Stopped then
    { cw with state := ClipState.Initializing }
  else cw

/-- The repositioning decision of TrackWorkflow::getOutput: repositioning
is needed when paused and the requested sub-frame differs from the last
one while no one-shot frame render was consumed, and otherwise exactly
when the sub-frame moved by more than one. -/
def needRepositioning (paused : Bool) (subFrame lastFrame : Int)
    (renderOneFrame : Bool) : Bool :=
  if paused = true ∧ subFrame ≠ lastFrame ∧ renderOneFrame = false then true
  else decide (1 < |subFrame - lastFrame|)

/-- Result of the clip scan loop of TrackWorkflow::getOutput: the
accumulated return buffer, the number of times the more-than-one-clip
anomaly was logged, and the updated clip mapping. -/
structure ScanOut where
  ret : Option Buffer
  anomalies : Nat
  clips : List (Int × ClipWorkflow)
deriving DecidableEq, Repr

/-- The clip scan loop of TrackWorkflow::getOutput.  For each entry in key
order: when `start <= currentFrame <= start + length`, the anomaly is
logged if the accumulated return value is already non-null, and the return
value is then overwritten with this clip's `renderClip` result; when
`currentFrame < start < currentFrame + nbFrameBeforePreload` the clip is
preloaded; otherwise it is stopped. -/
def scanLoop (currentFrame : Int) (needRepos renderOneFrame paused : Bool) :
    Option Buffer → Nat → List (Int × ClipWorkflow) → ScanOut
  | acc, anom, [] => ⟨acc, anom, []⟩
  | acc, anom, (start, cw) :: rest =>
    if start ≤ currentFrame ∧ currentFrame ≤ start + cw.helper.length then
      let anom2 := if acc.isSome then anom + 1 else anom
      let r := renderClip cw currentFrame start needRepos renderOneFrame paused
      let s := scanLoop currentFrame needRepos renderOneFrame paused r.1 anom2 rest
      ⟨s.ret, s.anomalies, (start, r.2.1) :: s.clips⟩
    else if currentFrame < start ∧ start - currentFrame < nbFrameBeforePreload then
      let s := scanLoop currentFrame needRepos renderOneFrame paused acc anom rest
      ⟨s.ret, s.anomalies, (start, preloadClip cw) :: s.clips⟩
    else
      let s := scanLoop currentFrame needRepos renderOneFrame paused acc anom rest
      ⟨s.ret, s.anomalies, (start, (stopClipWorkflow cw).1) :: s.clips⟩

/-- The observable outcome of one TrackWorkflow::getOutput call: the
returned buffer, the updated track, the anomaly log count, whether
`trackEndReached` was emitted, and the computed repositioning flag. -/
structure TrackOutput where
  buffer : Option Buffer
  track : TrackWorkflow
  anomalies : Nat
  trackEnd : Bool
  reposition : Bool
deriving DecidableEq, Repr

/-- TrackWorkflow::getOutput: a `m_lastFrame` of -1 is replaced by
`currentFrame`; `checkEnd` decides the `trackEndReached` signal; the
one-shot `m_renderOneFrame` flag is consumed; the repositioning flag is
computed; the clips are scanned; finally `m_lastFrame` is set to
`subFrame`. -/
def TrackWorkflow.getOutput (t : TrackWorkflow) (currentFrame subFrame : Int)
    (paused : Bool) : TrackOutput :=
  let lastF := if t.m_lastFrame = -1 then currentFrame else t.m_lastFrame
  let isEnd := checkEnd t currentFrame
  let rof := t.m_renderOneFrame
  let needRepos := needRepositioning paused subFrame lastF rof
  let s := scanLoop currentFrame needRepos rof paused none 0 t.clips
  { buffer := s.ret
    track := { clips := s.clips, m_length := t.m_length,
               m_lastFrame := subFrame, m_renderOneFrame := false }
    anomalies := s.anomalies
    trackEnd := isEnd
    reposition := needRepos }

/-- The clips whose closed placement interval contains `currentFrame`:
exactly the entries taking the render branch of the scan loop. -/
def matchesOf (currentFrame : Int) (l : List (Int × ClipWorkflow)) :
    List (Int × ClipWorkflow) :=
  l.filter fun p => decide (p.1 ≤ currentFrame ∧ currentFrame ≤ p.1 + p.2.helper.length)

/-- Modelled from the spec: the `StackedBuffer` one-time ownership token
(StackedBuffer.hpp is not among the provided sources): the wrapped buffer
and the flag deciding whether release returns it to the available pool
(the third constructor argument in VideoClipWorkflow::getOutput). -/
structure StackedBuffer where
  buf : Nat
  releaseToPool : Bool
deriving DecidableEq, Repr

/-- The buffer-queue state of one VideoClipWorkflow: the available queue
(pool-owned buffers ready to be filled), the computed queue (filled by the
decoder callback, oldest first, `push_back` appends the newest), the
not-yet-released StackedBuffers handed out by `getOutput`, and the
end-of-stream flag.  Buffers are identified by `Nat` tags. -/
structure PoolState where
  available : List Nat
  computed : List Nat
  inflight : List StackedBuffer
  endReached : Bool
deriving DecidableEq, Repr

/-- VideoClipWorkflow::VideoClipWorkflow: the pool starts with
`nbBuffers` fresh buffers in the available queue. -/
def initPool (nbBuffers : Nat) : PoolState :=
  { available := List.range nbBuffers, computed := [], inflight := [], endReached := false }

/-- The interactions that touch the two queues: the decoder lock/unlock
callback pair, a `getOutput` call, a StackedBuffer release (by in-flight
index), and the decoder reporting end of stream. -/
inductive PoolStep
  | lockCb
  | unlockCb
  | getOut (mode : GetMode)
  | release (i : Nat)
  | endStream
deriving DecidableEq, Repr

/-- One step of the buffer-queue protocol, `none` when the step blocks or
is invalid.  lockCb (VideoClipWorkflow::lock): pop one available buffer
and append it to computed, blocking when the pool is exhausted.  unlockCb
(VideoClipWorkflow::unlock): stores the PTS drift on the newest computed
buffer; no queue change.  getOut (VideoClipWorkflow::getOutput): NULL
without touching the queues once end of stream is reached; otherwise
blocks until a computed buffer exists (preGetOutput, modelled from the
spec), then Pop dequeues the oldest computed buffer into a StackedBuffer
that releases to the pool, while Get wraps the newest computed buffer
without dequeuing into a StackedBuffer that does not.  release (modelled
from the spec): removes the StackedBuffer, appending its buffer to the
available queue exactly when its release flag is set. -/
def poolStep (s : PoolState) : PoolStep → Option PoolState
  | PoolStep.lockCb =>
    match s.available with
    | [] => none
    | b :: rest => some { s with available := rest, computed := s.computed ++ [b] }
  | PoolStep.unlockCb =>
    match s.computed with
    | [] => none
    | _ :: _ => some s
  | PoolStep.getOut mode =>
    if s.endReached then some s
    else
      match s.computed with
      | [] => none
      | c :: cs =>
        match mode with
        | GetMode.Pop =>
          some { s with computed := cs,
                        inflight := s.inflight ++ [⟨c, true⟩] }
        | GetMode.Get =>
          some { s with inflight := s.inflight ++ [⟨cs.getLastD c, false⟩] }
  | PoolStep.release i =>
    match s.inflight.get? i with
    | none => none
    | some sb =>
      some { s with available := if sb.releaseToPool then s.available ++ [sb.buf] else s.available,
                    inflight := s.inflight.eraseIdx i }
  | PoolStep.endStream => some { s with endReached := true }

/-- Run a sequence of pool steps from a state; `none` as soon as one step
blocks or is invalid. -/
def runSteps (s : PoolState) : List PoolStep → Option PoolState
  | [] => some s
  | st :: rest =>
    match poolStep s st with
    | none => none
    | some s2 => runSteps s2 rest

/-- The number of in-flight StackedBuffers whose release returns their
buffer to the pool (the Pop-mode ones). -/
def popInflight (s : PoolState) : Nat :=
  (s.inflight.filter fun sb => sb.releaseToPool).length

/-- Pool conservation with respect to a capacity: available plus computed
plus pool-owned in-flight StackedBuffers. -/
def conserved (nbBuffers : Nat) (s : PoolState) : Prop :=
  s.available.length + s.computed.length + popInflight s = nbBuffers

instance (n : Nat) (s : PoolState) : Decidable (conserved n s) := by
  unfold conserved; infer_instance

/-! Concrete fixtures used by counterexamples and witnesses. -/

/-- A video clip workflow of length 100 placed for the examples. -/
def cwVideoA : ClipWorkflow :=
  { helper := { uuid := 0, trimBegin := 0, length := 100 },
    state := ClipState.Rendering, resyncRequired := false, fps := 25, initWorks := true }

/-- A video clip workflow of length 10. -/
def cwVideoB : ClipWorkflow :=
  { helper := { uuid := 1, trimBegin := 0, length := 10 },
    state := ClipState.Rendering, resyncRequired := false, fps := 25, initWorks := true }

/-- A video clip workflow of length 100 with uuid 1. -/
def cwVideoC : ClipWorkflow :=
  { helper := { uuid := 1, trimBegin := 0, length := 100 },
    state := ClipState.Rendering, resyncRequired := false, fps := 25, initWorks := true }

/-- A freshly constructed track (constructor initial values). -/
def emptyTrack : TrackWorkflow :=
  { clips := [], m_length := 0, m_lastFrame := 0, m_renderOneFrame := false }

/-! Helper lemmas on the sorted clip mapping. -/

lemma keysSortedB_cons {a : Int × ClipWorkflow} {l : List (Int × ClipWorkflow)}
    (h : keysSortedB (a :: l) = true) :
    (∀ p ∈ l, a.1 < p.1) ∧ keysSortedB l = true := by
  unfold keysSortedB at h
  rw [Bool.and_eq_true, List.all_eq_true] at h
  refine ⟨fun p hp => ?_, h.2⟩
  have := h.1 p hp
  exact of_decide_eq_true this

lemma mem_of_getLast?_some : ∀ {l : List (Int × ClipWorkflow)} {e : Int × ClipWorkflow},
    l.getLast? = some e → e ∈ l
  | [], _, h => by simp at h
  | [a], e, h => by
    simp [List.getLast?] at h
    subst h
    simp
  | a :: b :: rest, e, h => by
    rw [List.getLast?_cons_cons] at h
    exact List.mem_cons_of_mem a (mem_of_getLast?_some h)

lemma keys_le_getLast : ∀ {l : List (Int × ClipWorkflow)} {e : Int × ClipWorkflow},
    keysSortedB l = true → l.getLast? = some e → ∀ p ∈ l, p.1 ≤ e.1
  | [], _, _, hlast => by simp at hlast
  | [a], e, _, hlast => by
    simp [List.getLast?] at hlast
    subst hlast
    intro p hp
    simp at hp
    subst hp
    exact le_refl _
  | a :: b :: rest, e, hs, hlast => by
    have hcons := keysSortedB_cons hs
    rw [List.getLast?_cons_cons] at hlast
    have ih := keys_le_getLast hcons.2 hlast
    intro p hp
    rcases List.mem_cons.1 hp with hpa | hpt
    · subst hpa
      have hemem : e ∈ b :: rest := mem_of_getLast?_some hlast
      exact le_of_lt (hcons.1 e hemem)
    · exact ih p hpt

lemma getLast_of_maxKey : ∀ {l : List (Int × ClipWorkflow)} {e : Int × ClipWorkflow},
    keysSortedB l = true → e ∈ l → (∀ p ∈ l, p.1 ≤ e.1) → l.getLast? = some e
  | [], _, _, he, _ => by simp at he
  | [a], e, _, he, _ => by
    simp at he
    subst he
    simp [List.getLast?]
  | a :: b :: rest, e, hs, he, hmax => by
    have hcons := keysSortedB_cons hs
    rw [List.getLast?_cons_cons]
    rcases List.mem_cons.1 he with hea | het
    · exfalso
      have h1 : a.1 < b.1 := hcons.1 b (by simp)
      have h2 : b.1 ≤ e.1 := hmax b (by simp)
      rw [hea] at h2
      exact absurd (lt_of_lt_of_le h1 h2) (lt_irrefl _)
    · exact getLast_of_maxKey hcons.2 het
        (fun p hp => hmax p (List.mem_cons_of_mem a hp))

lemma clipsNonnegB_mem {l : List (Int × ClipWorkflow)} {p : Int × ClipWorkflow}
    (h : clipsNonnegB l = true) (hp : p ∈ l) :
    0 ≤ p.1 ∧ 0 ≤ p.2.helper.length := by
  unfold clipsNonnegB at h
  rw [List.all_eq_true] at h
  have := h p hp
  rw [Bool.and_eq_true, decide_eq_true_eq, decide_eq_true_eq] at this
  exact this

lemma maxEnd_eq_computeLength : ∀ (l : List (Int × ClipWorkflow)),
    keysSortedB l = true → nonOverlapB l = true → clipsNonnegB l = true →
    maxEnd l = computeLength l
  | [], _, _, _ => rfl
  | [a], _, _, hnn => by
    have ha := clipsNonnegB_mem hnn (List.mem_singleton.2 rfl)
    show max (a.1 + a.2.helper.length) 0 = _
    unfold computeLength
    simp [List.getLast?]
    omega
  | a :: b :: rest, hs, hov, hnn => by
    have hcons := keysSortedB_cons hs
    have hov2 : (a.1 + a.2.helper.length ≤ b.1) ∧ nonOverlapB (b :: rest) = true := by
      unfold nonOverlapB at hov
      rw [Bool.and_eq_true, decide_eq_true_eq] at hov
      exact hov
    have hnn2 : clipsNonnegB (b :: rest) = true := by
      unfold clipsNonnegB at hnn ⊢
      rw [List.all_eq_true] at hnn ⊢
      exact fun p hp => hnn p (List.mem_cons_of_mem a hp)
    have ih := maxEnd_eq_computeLength (b :: rest) hcons.2 hov2.2 hnn2
    obtain ⟨e, he⟩ : ∃ e, (b :: rest).getLast? = some e := by
      cases hg : (b :: rest).getLast? with
      | none => simp at hg
      | some e => exact ⟨e, rfl⟩
    have hble : b.1 ≤ e.1 := keys_le_getLast hcons.2 he b (by simp)
    have hnne := clipsNonnegB_mem hnn2 (mem_of_getLast?_some he)
    have hcl : computeLength (b :: rest) = e.1 + e.2.helper.length := by
      unfold computeLength
      rw [he]
    have hcl2 : computeLength (a :: b :: rest) = computeLength (b :: rest) := by
      unfold computeLength
      rw [List.getLast?_cons_cons]
    show max (a.1 + a.2.helper.length) (maxEnd (b :: rest)) = _
    rw [ih, hcl2, hcl]
    exact max_eq_right (by omega)

/-- Claim C1 (amended): after every addClip, removeClip, moveClip or clear
call the track length equals the start frame of the clip with the greatest
start key plus that clip helper length (0 when the mapping is empty,
`computeLength`); this equals the maximum of start + length over all clips
whenever the clips are key-sorted, pairwise non-overlapping and have
nonnegative starts and lengths — but not in general (see the
counterexample with overlapping clips). -/
theorem C1_track_length (t : TrackWorkflow)
    (hinv : lengthInv t) (hs : keysSortedB t.clips = true)
    (hov : nonOverlapB t.clips = true) (hnn : clipsNonnegB t.clips = true) :
    (∀ cw s, lengthInv (addClip t cw s)) ∧
    lengthInv (clear t) ∧
    (∀ uuid, lengthInv (removeClip t uuid)) ∧
    (∀ uuid s, lengthInv (moveClip t uuid s)) ∧
    TrackWorkflow.getLength t = maxEnd t.clips := by
  refine ⟨fun cw s => rfl, rfl, fun u => ?_, fun u s => ?_, ?_⟩
  · unfold removeClip
    split
    · rfl
    · exact hinv
  · unfold moveClip
    split
    · exact hinv
    · rfl
  · unfold TrackWorkflow.getLength
    rw [hinv, maxEnd_eq_computeLength t.clips hs hov hnn]

/-- A track whose two clips overlap: clip A occupies [0, 100] and clip B
is placed at 50 with length 10. -/
def trackOverlap : TrackWorkflow :=
  addClip (addClip emptyTrack cwVideoA 0) cwVideoB 50

/-- Claim C1 counterexample: after the two addClip calls of `trackOverlap`
the track length reported by getLength is 60 (the last clip start plus its
length) while the maximum of start + length over all clips is 100, so the
claimed equality with the maximum fails for overlapping clips. -/
theorem C1_counterexample :
    TrackWorkflow.getLength trackOverlap = 60 ∧
    maxEnd trackOverlap.clips = 100 ∧ (60 : Int) ≠ 100 := by
  decide

/-- A well-formed track: two non-overlapping clips at 0 and 100. -/
def trackSorted : TrackWorkflow :=
  { clips := [(0, cwVideoA), (100, cwVideoB)], m_length := 110,
    m_lastFrame := 0, m_renderOneFrame := false }

/-- Witness for C1_track_length at a concrete non-overlapping track. -/
theorem C1_witness :
    lengthInv trackSorted ∧ keysSortedB trackSorted.clips = true ∧
    nonOverlapB trackSorted.clips = true ∧ clipsNonnegB trackSorted.clips = true ∧
    TrackWorkflow.getLength trackSorted = maxEnd trackSorted.clips :=
  ⟨by decide, by decide, by decide, by decide,
    (C1_track_length trackSorted (by decide) (by decide) (by decide) (by decide)).2.2.2.2⟩

/-- Claim C8: on a clip workflow whose state is Stopped, Muted or Error,
stopClipWorkflow is a no-op — the clip is unchanged and stop() is not
invoked — and stopClipWorkflow is idempotent: a second call after any
first call never changes the clip nor invokes stop(). -/
theorem C8_stopClipWorkflow_noop (cw : ClipWorkflow)
    (h : cw.state = ClipState.Stopped ∨ cw.state = ClipState.Muted ∨
         cw.state = ClipState.Error) :
    stopClipWorkflow cw = (cw, false) ∧
    ∀ cw2 : ClipWorkflow,
      stopClipWorkflow ((stopClipWorkflow cw2).1) = ((stopClipWorkflow cw2).1, false) := by
  constructor
  · unfold stopClipWorkflow
    rw [if_pos h]
  · intro cw2
    by_cases h2 : cw2.state = ClipState.Stopped ∨ cw2.state = ClipState.Muted ∨
        cw2.state = ClipState.Error
    · have e1 : stopClipWorkflow cw2 = (cw2, false) := by
        unfold stopClipWorkflow
        rw [if_pos h2]
      rw [e1]
      unfold stopClipWorkflow
      rw [if_pos h2]
    · have e1 : stopClipWorkflow cw2 = ({ cw2 with state := ClipState.Stopped }, true) := by
        unfold stopClipWorkflow
        rw [if_neg h2]
      rw [e1]
      unfold stopClipWorkflow
      rw [if_pos (Or.inl rfl)]

/-- A muted clip workflow. -/
def cwMutedEx : ClipWorkflow :=
  { helper := { uuid := 7, trimBegin := 0, length := 40 },
    state := ClipState.Muted, resyncRequired := false, fps := 25, initWorks := true }

/-- Witness for C8_stopClipWorkflow_noop on a Muted clip. -/
theorem C8_witness :
    (cwMutedEx.state = ClipState.Stopped ∨ cwMutedEx.state = ClipState.Muted ∨
      cwMutedEx.state = ClipState.Error) ∧
    stopClipWorkflow cwMutedEx = (cwMutedEx, false) :=
  ⟨by decide, (C8_stopClipWorkflow_noop cwMutedEx (by decide)).1⟩

/-- Claim C9: for a non-empty clip mapping (here: containing a clip `e`
whose start key is maximal), checkEnd returns true exactly when that
chronologically last clip is in Error state or its start plus length is
strictly less than the current frame. -/
theorem C9_checkEnd (t : TrackWorkflow) (cf : Int) (e : Int × ClipWorkflow)
    (hs : keysSortedB t.clips = true) (he : e ∈ t.clips)
    (hmax : ∀ p ∈ t.clips, p.1 ≤ e.1) :
    (checkEnd t cf = true ↔
      (e.2.state = ClipState.Error ∨ e.1 + e.2.helper.length < cf)) := by
  have hlast := getLast_of_maxKey hs he hmax
  obtain ⟨k, cw⟩ := e
  unfold checkEnd
  rw [hlast]
  simp only [Bool.or_eq_true, decide_eq_true_eq]
  constructor
  · rintro (h | h)
    · exact Or.inl h
    · exact Or.inr (by omega)
  · rintro (h | h)
    · exact Or.inl h
    · exact Or.inr (by omega)

/-- Witness for C9_checkEnd: on `trackSorted` the last clip ends at frame
110, so frame 120 is past the end. -/
theorem C9_witness :
    checkEnd trackSorted 120 = true ↔
      (cwVideoB.state = ClipState.Error ∨ (100 : Int) + cwVideoB.helper.length < 120) :=
  C9_checkEnd trackSorted 120 (100, cwVideoB) (by decide) (by decide) (by decide)

/-- Claim C7 (amended): the repositioning flag computed by
TrackWorkflow::getOutput (when the last frame is not the -1 sentinel) is
true exactly when paused with a changed sub-frame while no one-shot
renderOneFrame request is being consumed, or when the sub-frame moved by
more than one; in particular a paused single-frame scrub does count as
repositioning. -/
theorem C7_repositioning (t : TrackWorkflow) (cf sub : Int) (p : Bool)
    (h : t.m_lastFrame ≠ -1) :
    ((t.getOutput cf sub p).reposition = true ↔
      ((p = true ∧ sub ≠ t.m_lastFrame ∧ t.m_renderOneFrame = false) ∨
        1 < |sub - t.m_lastFrame|)) := by
  have hrep : (t.getOutput cf sub p).reposition =
      needRepositioning p sub t.m_lastFrame t.m_renderOneFrame := by
    unfold TrackWorkflow.getOutput
    simp [h]
  rw [hrep]
  unfold needRepositioning
  by_cases hc : p = true ∧ sub ≠ t.m_lastFrame ∧ t.m_renderOneFrame = false
  · rw [if_pos hc]
    simp [hc]
  · rw [if_neg hc]
    simp [hc]

/-- A track whose last rendered sub-frame was 5, with no pending one-shot
frame request. -/
def trackPausedScrub : TrackWorkflow :=
  { clips := [], m_length := 0, m_lastFrame := 5, m_renderOneFrame := false }

/-- Claim C7 counterexample: a paused request for sub-frame 6 after
sub-frame 5 is a single-frame advance (|6 - 5| = 1), yet getOutput treats
it as repositioning, refuting the claim that a single-frame advance is
never repositioning. -/
theorem C7_counterexample :
    |(6 : Int) - trackPausedScrub.m_lastFrame| = 1 ∧
    (trackPausedScrub.getOutput 6 6 true).reposition = true := by
  decide

/-- Witness for C7_repositioning: an unpaused jump from sub-frame 5 to 9. -/
theorem C7_witness :
    trackPausedScrub.m_lastFrame ≠ -1 ∧
    ((trackPausedScrub.getOutput 9 9 false).reposition = true ↔
      ((false = true ∧ (9 : Int) ≠ trackPausedScrub.m_lastFrame ∧
        trackPausedScrub.m_renderOneFrame = false) ∨
        1 < |(9 : Int) - trackPausedScrub.m_lastFrame|)) :=
  ⟨by decide, C7_repositioning trackPausedScrub 9 9 false (by decide)⟩

/-! Lemmas on the getOutput clip scan loop (claim C2). -/

lemma scanLoop_no_match : ∀ {l : List (Int × ClipWorkflow)} (cf : Int)
    (nr rof p : Bool) (acc : Option Buffer) (anom : Nat),
    matchesOf cf l = [] →
    (scanLoop cf nr rof p acc anom l).ret = acc ∧
    (scanLoop cf nr rof p acc anom l).anomalies = anom
  | [], _, _, _, _, _, _, _ => ⟨rfl, rfl⟩
  | (s0, c0) :: rest, cf, nr, rof, p, acc, anom, hm => by
    by_cases hmt : s0 ≤ cf ∧ cf ≤ s0 + c0.helper.length
    · exfalso
      unfold matchesOf at hm
      rw [List.filter_cons] at hm
      simp [hmt] at hm
    · have hrest : matchesOf cf rest = [] := by
        unfold matchesOf at hm ⊢
        rw [List.filter_cons] at hm
        simp only [decide_eq_true_eq, hmt] at hm
        simpa using hm
      unfold scanLoop
      rw [if_neg hmt]
      by_cases hpre : cf < s0 ∧ s0 - cf < nbFrameBeforePreload
      · rw [if_pos hpre]
        exact scanLoop_no_match cf nr rof p acc anom hrest
      · rw [if_neg hpre]
        exact scanLoop_no_match cf nr rof p acc anom hrest

lemma scanLoop_anom_mono : ∀ {l : List (Int × ClipWorkflow)} (cf : Int)
    (nr rof p : Bool) (acc : Option Buffer) (anom : Nat),
    anom ≤ (scanLoop cf nr rof p acc anom l).anomalies
  | [], _, _, _, _, _, _ => le_refl _
  | (s0, c0) :: rest, cf, nr, rof, p, acc, anom => by
    unfold scanLoop
    by_cases hmt : s0 ≤ cf ∧ cf ≤ s0 + c0.helper.length
    · rw [if_pos hmt]
      have h2 : anom ≤ (if acc.isSome then anom + 1 else anom) := by
        split
        · exact Nat.le_succ anom
        · exact le_refl _
      exact le_trans h2 (scanLoop_anom_mono cf nr rof p _ _)
    · rw [if_neg hmt]
      by_cases hpre : cf < s0 ∧ s0 - cf < nbFrameBeforePreload
      · rw [if_pos hpre]
        exact scanLoop_anom_mono cf nr rof p acc anom
      · rw [if_neg hpre]
        exact scanLoop_anom_mono cf nr rof p acc anom

lemma scanLoop_anom_of_match : ∀ {l : List (Int × ClipWorkflow)} (cf : Int)
    (nr rof p : Bool) (acc : Option Buffer) (anom : Nat),
    acc.isSome = true → matchesOf cf l ≠ [] →
    anom + 1 ≤ (scanLoop cf nr rof p acc anom l).anomalies
  | [], cf, _, _, _, _, _, hacc, hm => absurd rfl hm
  | (s0, c0) :: rest, cf, nr, rof, p, acc, anom, hacc, hm => by
    unfold scanLoop
    by_cases hmt : s0 ≤ cf ∧ cf ≤ s0 + c0.helper.length
    · rw [if_pos hmt]
      show anom + 1 ≤ (scanLoop cf nr rof p (renderClip c0 cf s0 nr rof p).1
          (if acc.isSome = true then anom + 1 else anom) rest).anomalies
      rw [if_pos hacc]
      exact scanLoop_anom_mono cf nr rof p _ _
    · have hrest : matchesOf cf rest ≠ [] := by
        unfold matchesOf at hm ⊢
        rw [List.filter_cons] at hm
        simp only [decide_eq_true_eq, hmt] at hm
        simpa using hm
      rw [if_neg hmt]
      by_cases hpre : cf < s0 ∧ s0 - cf < nbFrameBeforePreload
      · rw [if_pos hpre]
        exact scanLoop_anom_of_match cf nr rof p acc anom hacc hrest
      · rw [if_neg hpre]
        exact scanLoop_anom_of_match cf nr rof p acc anom hacc hrest

lemma scanLoop_ret_last : ∀ {l : List (Int × ClipWorkflow)} (cf : Int)
    (nr rof p : Bool) (acc : Option Buffer) (anom : Nat)
    (m : Int × ClipWorkflow),
    (matchesOf cf l).getLast? = some m →
    (scanLoop cf nr rof p acc anom l).ret = (renderClip m.2 cf m.1 nr rof p).1
  | [], _, _, _, _, _, _, _, hm => by simp [matchesOf] at hm
  | (s0, c0) :: rest, cf, nr, rof, p, acc, anom, m, hm => by
    by_cases hmt : s0 ≤ cf ∧ cf ≤ s0 + c0.helper.length
    · have hcons : matchesOf cf ((s0, c0) :: rest) = (s0, c0) :: matchesOf cf rest := by
        unfold matchesOf
        rw [List.filter_cons]
        simp [hmt]
      rw [hcons] at hm
      unfold scanLoop
      rw [if_pos hmt]
      cases hrest : matchesOf cf rest with
      | nil =>
        rw [hrest] at hm
        simp [List.getLast?] at hm
        subst hm
        exact (scanLoop_no_match cf nr rof p _ _ hrest).1
      | cons x xs =>
        rw [hrest] at hm
        rw [List.getLast?_cons_cons] at hm
        rw [← hrest] at hm
        exact scanLoop_ret_last cf nr rof p _ _ m hm
    · have hcons : matchesOf cf ((s0, c0) :: rest) = matchesOf cf rest := by
        unfold matchesOf
        rw [List.filter_cons]
        simp [hmt]
      rw [hcons] at hm
      unfold scanLoop
      rw [if_neg hmt]
      by_cases hpre : cf < s0 ∧ s0 - cf < nbFrameBeforePreload
      · rw [if_pos hpre]
        exact scanLoop_ret_last cf nr rof p acc anom m hm
      · rw [if_neg hpre]
        exact scanLoop_ret_last cf nr rof p acc anom m hm

lemma scanLoop_first_match_anom : ∀ {l : List (Int × ClipWorkflow)} (cf : Int)
    (nr rof p : Bool) (anom : Nat) (e : Int × ClipWorkflow)
    (rest2 : List (Int × ClipWorkflow)),
    matchesOf cf l = e :: rest2 → rest2 ≠ [] →
    ((renderClip e.2 cf e.1 nr rof p).1).isSome = true →
    anom + 1 ≤ (scanLoop cf nr rof p none anom l).anomalies
  | [], _, _, _, _, _, _, _, hm, _, _ => by simp [matchesOf] at hm
  | (s0, c0) :: rest, cf, nr, rof, p, anom, e, rest2, hm, hne, hsome => by
    by_cases hmt : s0 ≤ cf ∧ cf ≤ s0 + c0.helper.length
    · have hcons : matchesOf cf ((s0, c0) :: rest) = (s0, c0) :: matchesOf cf rest := by
        unfold matchesOf
        rw [List.filter_cons]
        simp [hmt]
      rw [hcons] at hm
      obtain ⟨he, hrest⟩ := List.cons_eq_cons.mp hm
      unfold scanLoop
      rw [if_pos hmt]
      show anom + 1 ≤ (scanLoop cf nr rof p (renderClip c0 cf s0 nr rof p).1
          (if (none : Option Buffer).isSome = true then anom + 1 else anom) rest).anomalies
      apply scanLoop_anom_of_match
      · rw [← he] at hsome
        exact hsome
      · rw [hrest]
        exact hne
    · have hcons : matchesOf cf ((s0, c0) :: rest) = matchesOf cf rest := by
        unfold matchesOf
        rw [List.filter_cons]
        simp [hmt]
      rw [hcons] at hm
      unfold scanLoop
      rw [if_neg hmt]
      by_cases hpre : cf < s0 ∧ s0 - cf < nbFrameBeforePreload
      · rw [if_pos hpre]
        exact scanLoop_first_match_anom cf nr rof p anom e rest2 hm hne hsome
      · rw [if_neg hpre]
        exact scanLoop_first_match_anom cf nr rof p anom e rest2 hm hne hsome

/-- The repositioning flag one getOutput call computes and passes to every
renderClip call of its scan. -/
def repoFlag (t : TrackWorkflow) (cf sub : Int) (p : Bool) : Bool :=
  needRepositioning p sub (if t.m_lastFrame = -1 then cf else t.m_lastFrame)
    t.m_renderOneFrame

/-- Claim C2 (amended): when several clips match the current frame,
every match is rendered and the accumulated return value is overwritten
each time, so the LAST matching clip in key order (greatest start frame)
wins: the buffer getOutput returns is the one produced for the last match,
not the first; the anomaly is logged (at least once) as soon as a second
match is processed while the first match produced a non-null buffer. -/
theorem C2_overlap_last_match_wins (t : TrackWorkflow) (cf sub : Int) (p : Bool)
    (m : Int × ClipWorkflow)
    (hm : (matchesOf cf t.clips).getLast? = some m) :
    (t.getOutput cf sub p).buffer =
      (renderClip m.2 cf m.1 (repoFlag t cf sub p) t.m_renderOneFrame p).1 ∧
    (∀ e rest2, matchesOf cf t.clips = e :: rest2 → rest2 ≠ [] →
      ((renderClip e.2 cf e.1 (repoFlag t cf sub p) t.m_renderOneFrame p).1).isSome = true →
      1 ≤ (t.getOutput cf sub p).anomalies) := by
  constructor
  · exact scanLoop_ret_last cf (repoFlag t cf sub p) t.m_renderOneFrame p none 0 m hm
  · intro e rest2 h1 h2 h3
    exact scanLoop_first_match_anom cf (repoFlag t cf sub p) t.m_renderOneFrame p 0
      e rest2 h1 h2 h3

/-- A track with two Rendering clips whose placement intervals both
contain frame 75: clip uuid 0 at [0, 100] and clip uuid 1 at [50, 150]. -/
def trackDoubleMatch : TrackWorkflow :=
  { clips := [(0, cwVideoA), (50, cwVideoC)], m_length := 150,
    m_lastFrame := 74, m_renderOneFrame := false }

/-- Claim C2 counterexample: at frame 75 both clips match; the first match
in key order (clip uuid 0 at start 0) produces buffer 0, yet getOutput
returns buffer 1, produced for the second (last) match — the first match
does not win. -/
theorem C2_counterexample :
    (matchesOf 75 trackDoubleMatch.clips).head? = some (0, cwVideoA) ∧
    (renderClip cwVideoA 75 0 false false false).1 = some { uuid := 0 } ∧
    (trackDoubleMatch.getOutput 75 75 false).buffer = some { uuid := 1 } ∧
    some ({ uuid := 1 } : Buffer) ≠ some ({ uuid := 0 } : Buffer) := by
  decide

/-- Witness for C2_overlap_last_match_wins on `trackDoubleMatch`. -/
theorem C2_witness :
    (trackDoubleMatch.getOutput 75 75 false).buffer =
      (renderClip cwVideoC 75 50 (repoFlag trackDoubleMatch 75 75 false)
        trackDoubleMatch.m_renderOneFrame false).1 :=
  (C2_overlap_last_match_wins trackDoubleMatch 75 75 false (50, cwVideoC) (by decide)).1

/-! Lemmas on the buffer-pool protocol (claims C3, C4, C5). -/

lemma get?_append_singleton : ∀ (l : List StackedBuffer) (x : StackedBuffer),
    (l ++ [x]).get? l.length = some x
  | [], _ => rfl
  | _ :: rest, x => get?_append_singleton rest x

lemma eraseIdx_append_singleton : ∀ (l : List StackedBuffer) (x : StackedBuffer),
    (l ++ [x]).eraseIdx l.length = l
  | [], _ => rfl
  | a :: rest, x => by
    rw [List.cons_append]
    show a :: (rest ++ [x]).eraseIdx rest.length = a :: rest
    rw [eraseIdx_append_singleton rest x]

lemma poolStep_getOut_eq (s : PoolState) (mode : GetMode) :
    poolStep s (PoolStep.getOut mode) =
      if s.endReached then some s
      else
        match s.computed with
        | [] => none
        | c :: cs =>
          match mode with
          | GetMode.Pop =>
            some { s with computed := cs,
                          inflight := s.inflight ++ [{ buf := c, releaseToPool := true }] }
          | GetMode.Get =>
            some { s with inflight :=
              s.inflight ++ [{ buf := cs.getLastD c, releaseToPool := false }] } := rfl

lemma poolStep_release_eq (s : PoolState) (i : Nat) :
    poolStep s (PoolStep.release i) =
      match s.inflight.get? i with
      | none => none
      | some sb =>
        some { s with
               available :=
                 (if sb.releaseToPool then s.available ++ [sb.buf] else s.available),
               inflight := s.inflight.eraseIdx i } := rfl

lemma getLast?_cons_eq_getLastD : ∀ (c : Nat) (cs : List Nat),
    (c :: cs).getLast? = some (cs.getLastD c)
  | _, [] => rfl
  | c, d :: ds => by
    rw [List.getLast?_cons_cons, getLast?_cons_eq_getLastD d ds, List.getLastD_cons]

lemma popFilter_append (l : List StackedBuffer) (x : StackedBuffer) :
    ((l ++ [x]).filter fun b => b.releaseToPool).length
      = (l.filter fun b => b.releaseToPool).length
        + (if x.releaseToPool then 1 else 0) := by
  rw [List.filter_append, List.length_append]
  congr 1
  rw [List.filter_cons, List.filter_nil]
  by_cases hp : x.releaseToPool <;> simp [hp]

lemma popFilter_length_eraseIdx : ∀ (l : List StackedBuffer) (i : Nat) (sb : StackedBuffer),
    l.get? i = some sb →
    ((l.eraseIdx i).filter fun b => b.releaseToPool).length
        + (if sb.releaseToPool then 1 else 0)
      = (l.filter fun b => b.releaseToPool).length
  | [], i, sb, h => by simp at h
  | a :: rest, 0, sb, h => by
    simp at h
    subst h
    have he0 : (a :: rest).eraseIdx 0 = rest := rfl
    rw [he0, List.filter_cons]
    by_cases hp : a.releaseToPool <;> simp [hp]
  | a :: rest, i + 1, sb, h => by
    have ih := popFilter_length_eraseIdx rest i sb h
    show ((a :: rest.eraseIdx i).filter _).length + _ = ((a :: rest).filter _).length
    rw [List.filter_cons, List.filter_cons]
    by_cases hp : a.releaseToPool <;> simp [hp] <;> omega

lemma poolStep_conserved (n : Nat) (s s2 : PoolState) (st : PoolStep)
    (hc : conserved n s) (h : poolStep s st = some s2) : conserved n s2 := by
  unfold conserved popInflight at hc ⊢
  cases st with
  | lockCb =>
    simp only [poolStep] at h
    cases ha : s.available with
    | nil => rw [ha] at h; simp at h
    | cons b rest =>
      rw [ha] at h
      injection h with h
      subst h
      simp only [List.length_append, List.length_cons, List.length_nil]
      rw [ha] at hc
      simp only [List.length_cons] at hc
      omega
  | unlockCb =>
    simp only [poolStep] at h
    cases hcp : s.computed with
    | nil => rw [hcp] at h; simp at h
    | cons c cs =>
      rw [hcp] at h
      injection h with h
      subst h
      exact hc
  | getOut mode =>
    simp only [poolStep] at h
    by_cases he : s.endReached = true
    · rw [if_pos he] at h
      injection h with h
      subst h
      exact hc
    · rw [if_neg he] at h
      cases hcp : s.computed with
      | nil => rw [hcp] at h; simp at h
      | cons c cs =>
        rw [hcp] at h
        cases mode with
        | Pop =>
          injection h with h
          subst h
          show s.available.length + cs.length +
              ((s.inflight ++ [({ buf := c, releaseToPool := true } : StackedBuffer)]).filter
                fun sb => sb.releaseToPool).length = n
          rw [popFilter_append]
          have hone : (if ({ buf := c, releaseToPool := true } :
              StackedBuffer).releaseToPool then 1 else 0) = 1 := rfl
          rw [hone]
          rw [hcp] at hc
          simp only [List.length_cons] at hc
          omega
        | Get =>
          injection h with h
          subst h
          show s.available.length + (c :: cs).length +
              ((s.inflight ++ [({ buf := cs.getLastD c, releaseToPool := false } : StackedBuffer)]).filter
                fun sb => sb.releaseToPool).length = n
          rw [popFilter_append]
          have hzero : (if ({ buf := cs.getLastD c, releaseToPool := false } :
              StackedBuffer).releaseToPool then 1 else 0) = 0 := rfl
          rw [hzero]
          rw [hcp] at hc
          omega
  | release i =>
    simp only [poolStep] at h
    cases hg : s.inflight.get? i with
    | none => rw [hg] at h; simp at h
    | some sb =>
      rw [hg] at h
      injection h with h
      subst h
      have hfe := popFilter_length_eraseIdx s.inflight i sb hg
      by_cases hp : sb.releaseToPool
      · simp only [hp, if_true, List.length_append, List.length_cons, List.length_nil] at *
        omega
      · simp only [hp, if_false, Bool.false_eq_true] at *
        omega
  | endStream =>
    simp only [poolStep] at h
    injection h with h
    subst h
    exact hc

lemma runSteps_conserved : ∀ (steps : List PoolStep) (s0 s : PoolState) (n : Nat),
    conserved n s0 → runSteps s0 steps = some s → conserved n s
  | [], s0, s, n, hc, h => by
    unfold runSteps at h
    injection h with h
    rw [← h]
    exact hc
  | st :: rest, s0, s, n, hc, h => by
    unfold runSteps at h
    cases h2 : poolStep s0 st with
    | none => rw [h2] at h; simp at h
    | some s1 =>
      rw [h2] at h
      exact runSteps_conserved rest s1 s n (poolStep_conserved n s0 s1 st hc h2) h

/-- Claim C3 (amended): in every state reachable by decoder lock/unlock
callbacks, getOutput calls and StackedBuffer releases from a pool of
`nbBuffers` buffers, the available queue size plus the computed queue size
plus the number of in-flight POOL-OWNED StackedBuffers (those whose
release returns their buffer to the pool, i.e. the Pop-mode ones) equals
`nbBuffers`.  Counting every unreleased StackedBuffer — as the claim
states — fails, because a Get-mode StackedBuffer wraps a buffer that also
still sits in the computed queue (see the counterexample). -/
theorem C3_pool_conservation (n : Nat) (steps : List PoolStep) (s : PoolState)
    (h : runSteps (initPool n) steps = some s) :
    s.available.length + s.computed.length + popInflight s = n := by
  have hc0 : conserved n (initPool n) := by
    unfold conserved popInflight initPool
    simp
  exact runSteps_conserved steps (initPool n) s n hc0 h

/-- The state of a one-buffer pool after a lock/unlock callback pair and a
Get-mode getOutput. -/
def poolAfterGet : PoolState :=
  { available := [], computed := [0],
    inflight := [{ buf := 0, releaseToPool := false }], endReached := false }

/-- Claim C3 counterexample: with pool capacity 1, after one decode
callback pair and one Get-mode getOutput there is one unreleased
StackedBuffer while its buffer still sits in the computed queue, so
available + computed + (all in-flight StackedBuffers) = 2, not the
capacity 1. -/
theorem C3_counterexample :
    runSteps (initPool 1)
        [PoolStep.lockCb, PoolStep.unlockCb, PoolStep.getOut GetMode.Get] =
      some poolAfterGet ∧
    poolAfterGet.available.length + poolAfterGet.computed.length
        + poolAfterGet.inflight.length = 2 ∧
    (2 : Nat) ≠ 1 := by
  decide

/-- The state of a two-buffer pool after one decode callback pair and one
Pop-mode getOutput. -/
def poolAfterPop : PoolState :=
  { available := [1], computed := [],
    inflight := [{ buf := 0, releaseToPool := true }], endReached := false }

/-- Witness for C3_pool_conservation: capacity 2, one decode callback and
one Pop-mode getOutput. -/
theorem C3_witness :
    runSteps (initPool 2) [PoolStep.lockCb, PoolStep.getOut GetMode.Pop] =
      some poolAfterPop ∧
    poolAfterPop.available.length + poolAfterPop.computed.length
        + popInflight poolAfterPop = 2 :=
  ⟨by decide,
    C3_pool_conservation 2 [PoolStep.lockCb, PoolStep.getOut GetMode.Pop]
      poolAfterPop (by decide)⟩

/-- Claim C4: a Get-mode getOutput (end of stream not reached, at least
one computed buffer) changes only the in-flight list: it wraps the most
recent computed buffer (the last one appended by the lock callback)
without dequeuing it, the StackedBuffer's release flag is false, and
releasing that StackedBuffer restores the state exactly — in particular
it does not return the buffer to the available pool. -/
theorem C4_get_mode (s : PoolState) (c : Nat) (cs : List Nat)
    (h1 : s.endReached = false) (h2 : s.computed = c :: cs) :
    poolStep s (PoolStep.getOut GetMode.Get) =
      some { s with inflight :=
        s.inflight ++ [{ buf := cs.getLastD c, releaseToPool := false }] } ∧
    s.computed.getLast? = some (cs.getLastD c) ∧
    poolStep { s with inflight :=
        s.inflight ++ [{ buf := cs.getLastD c, releaseToPool := false }] }
      (PoolStep.release s.inflight.length) = some s := by
  refine ⟨?_, ?_, ?_⟩
  · rw [poolStep_getOut_eq]
    rw [if_neg (by rw [h1]; exact Bool.false_ne_true)]
    rw [h2]
  · rw [h2]
    exact getLast?_cons_eq_getLastD c cs
  · rw [poolStep_release_eq]
    dsimp only
    rw [get?_append_singleton, eraseIdx_append_singleton]
    rfl

/-- A pool state with one available buffer and two computed buffers. -/
def poolTwoComputed : PoolState :=
  { available := [5], computed := [1, 2], inflight := [], endReached := false }

/-- Witness for C4_get_mode on `poolTwoComputed`. -/
theorem C4_witness :
    poolStep poolTwoComputed (PoolStep.getOut GetMode.Get) =
      some { poolTwoComputed with inflight := poolTwoComputed.inflight ++
        [{ buf := ([2] : List Nat).getLastD 1, releaseToPool := false }] } ∧
    poolTwoComputed.computed.getLast? = some (([2] : List Nat).getLastD 1) ∧
    poolStep { poolTwoComputed with inflight := poolTwoComputed.inflight ++
        [{ buf := ([2] : List Nat).getLastD 1, releaseToPool := false }] }
      (PoolStep.release poolTwoComputed.inflight.length) = some poolTwoComputed :=
  C4_get_mode poolTwoComputed 1 [2] rfl rfl

/-- Claim C5: with end of stream not reached and a computed buffer
present, a Pop-mode getOutput dequeues exactly the oldest computed buffer
(computed shrinks by one, available untouched, the StackedBuffer is
pool-owned), a Get-mode getOutput changes neither queue, and the computed
queue size grows only through a decoder lock callback: no other step
increases it. -/
theorem C5_pop_get_queue_effects :
    (∀ (s : PoolState) (c : Nat) (cs : List Nat),
      s.endReached = false → s.computed = c :: cs →
      poolStep s (PoolStep.getOut GetMode.Pop) =
        some { s with computed := cs,
                      inflight := s.inflight ++ [{ buf := c, releaseToPool := true }] } ∧
      cs.length + 1 = s.computed.length) ∧
    (∀ (s : PoolState) (c : Nat) (cs : List Nat),
      s.endReached = false → s.computed = c :: cs →
      poolStep s (PoolStep.getOut GetMode.Get) =
        some { s with inflight :=
          s.inflight ++ [{ buf := cs.getLastD c, releaseToPool := false }] }) ∧
    (∀ (s s2 : PoolState) (st : PoolStep), poolStep s st = some s2 →
      s.computed.length < s2.computed.length → st = PoolStep.lockCb) := by
  refine ⟨?_, ?_, ?_⟩
  · intro s c cs h1 h2
    constructor
    · rw [poolStep_getOut_eq]
      rw [if_neg (by rw [h1]; exact Bool.false_ne_true)]
      rw [h2]
    · rw [h2]
      simp
  · intro s c cs h1 h2
    rw [poolStep_getOut_eq]
    rw [if_neg (by rw [h1]; exact Bool.false_ne_true)]
    rw [h2]
  · intro s s2 st h hlt
    cases st with
    | lockCb => rfl
    | unlockCb =>
      exfalso
      simp only [poolStep] at h
      cases hcp : s.computed with
      | nil => rw [hcp] at h; simp at h
      | cons c cs =>
        rw [hcp] at h
        injection h with h
        subst h
        exact absurd hlt (lt_irrefl _)
    | getOut mode =>
      exfalso
      simp only [poolStep] at h
      by_cases he : s.endReached = true
      · rw [if_pos he] at h
        injection h with h
        subst h
        exact absurd hlt (lt_irrefl _)
      · rw [if_neg he] at h
        cases hcp : s.computed with
        | nil => rw [hcp] at h; simp at h
        | cons c cs =>
          rw [hcp] at h
          cases mode with
          | Pop =>
            injection h with h
            subst h
            rw [hcp] at hlt
            simp only [List.length_cons] at hlt
            omega
          | Get =>
            injection h with h
            subst h
            rw [hcp] at hlt
            exact absurd hlt (lt_irrefl _)
    | release i =>
      exfalso
      simp only [poolStep] at h
      cases hg : s.inflight.get? i with
      | none => rw [hg] at h; simp at h
      | some sb =>
        rw [hg] at h
        injection h with h
        subst h
        exact absurd hlt (lt_irrefl _)
    | endStream =>
      exfalso
      simp only [poolStep] at h
      injection h with h
      subst h
      exact absurd hlt (lt_irrefl _)

lemma cppTrunc_eq_floor (q : ℚ) (h : 0 ≤ q) : cppTrunc q = ⌊q⌋ :=
  if_pos h

/-- Claim C6: when an active clip (Rendering/Paused/PauseRequired/
UnpauseRequired) is marked resync-required — as moveClip marks the moved
clip — the next renderClip issues exactly one seek (setTime) before
requesting output, with target milliseconds
trimBeginMs + (currentFrame - start) * frameDurationMs, where
trimBeginMs = trimBegin * (1000 / fps) and frameDurationMs = 1000 / fps,
each term truncated to whole milliseconds. -/
theorem C6_resync_seek (cw : ClipWorkflow) (cf start : Int) (nr rof p : Bool)
    (hstate : cw.state = ClipState.Rendering ∨ cw.state = ClipState.Paused ∨
      cw.state = ClipState.PauseRequired ∨ cw.state = ClipState.UnpauseRequired)
    (hres : cw.resyncRequired = true)
    (hfps : 0 < cw.fps) (hb : 0 ≤ cw.helper.trimBegin) (hcf : start ≤ cf) :
    (renderClip cw cf start nr rof p).2.2 =
      [Event.setTime (⌊(cw.helper.trimBegin : ℚ) * (1000 / cw.fps)⌋ +
        ⌊((cf - start : Int) : ℚ) * (1000 / cw.fps)⌋),
       Event.getOut (if p = false || rof = true then GetMode.Pop else GetMode.Get)] ∧
    ((renderClip cw cf start nr rof p).2.2.countP fun e =>
      match e with | Event.setTime _ => true | _ => false) = 1 ∧
    (∀ c : ClipWorkflow, (requireResync c).resyncRequired = true) := by
  have hadj : adjustClipTime cf start cw =
      ⌊(cw.helper.trimBegin : ℚ) * (1000 / cw.fps)⌋ +
      ⌊((cf - start : Int) : ℚ) * (1000 / cw.fps)⌋ := by
    unfold adjustClipTime
    have h1 : (0 : ℚ) ≤ ((cf - start : Int) : ℚ) / cw.fps * 1000 := by
      apply mul_nonneg
      · apply div_nonneg
        · exact_mod_cast sub_nonneg.2 hcf
        · exact le_of_lt hfps
      · norm_num
    have h2 : (0 : ℚ) ≤ (cw.helper.trimBegin : ℚ) / cw.fps * 1000 := by
      apply mul_nonneg
      · apply div_nonneg
        · exact_mod_cast hb
        · exact le_of_lt hfps
      · norm_num
    rw [cppTrunc_eq_floor _ h1, cppTrunc_eq_floor _ h2]
    have e1 : (cw.helper.trimBegin : ℚ) / cw.fps * 1000 =
        (cw.helper.trimBegin : ℚ) * (1000 / cw.fps) := by ring
    have e2 : ((cf - start : Int) : ℚ) / cw.fps * 1000 =
        ((cf - start : Int) : ℚ) * (1000 / cw.fps) := by ring
    rw [e1, e2]
  refine ⟨?_, ?_, fun c => rfl⟩
  · unfold renderClip
    rw [if_pos hstate, if_pos (Or.inl hres)]
    rw [hadj]
  · unfold renderClip
    rw [if_pos hstate, if_pos (Or.inl hres)]
    rfl

/-- A Rendering clip marked resync-required, with trim begin 50 frames at
25 fps. -/
def cwResyncEx : ClipWorkflow :=
  { helper := { uuid := 3, trimBegin := 50, length := 100 },
    state := ClipState.Rendering, resyncRequired := true, fps := 25, initWorks := true }

/-- Witness for C6_resync_seek on `cwResyncEx` at current frame 10,
start 5. -/
theorem C6_witness :
    (renderClip cwResyncEx 10 5 false false false).2.2 =
      [Event.setTime (⌊(cwResyncEx.helper.trimBegin : ℚ) * (1000 / cwResyncEx.fps)⌋ +
        ⌊((10 - 5 : Int) : ℚ) * (1000 / cwResyncEx.fps)⌋),
       Event.getOut (if false = false || false = true then GetMode.Pop else GetMode.Get)] ∧
    ((renderClip cwResyncEx 10 5 false false false).2.2.countP fun e =>
      match e with | Event.setTime _ => true | _ => false) = 1 :=
  ⟨(C6_resync_seek cwResyncEx 10 5 false false false (by decide) (by decide)
      (by decide) (by decide) (by decide)).1,
   (C6_resync_seek cwResyncEx 10 5 false false false (by decide) (by decide)
      (by decide) (by decide) (by decide)).2.1⟩

/-- Witness for C5_pop_get_queue_effects on `poolTwoComputed`. -/
theorem C5_witness :
    poolStep poolTwoComputed (PoolStep.getOut GetMode.Pop) =
      some { poolTwoComputed with computed := [2], inflight :=
        poolTwoComputed.inflight ++ [{ buf := 1, releaseToPool := true }] } ∧
    ([2] : List Nat).length + 1 = poolTwoComputed.computed.length :=
  C5_pop_get_queue_effects.1 poolTwoComputed 1 [2] rfl rfl

/-! Lemmas on map insertion and erasure (claim C10). -/

lemma mem_eraseFirstUuid : ∀ {l : List (Int × ClipWorkflow)} {u : Nat}
    {p : Int × ClipWorkflow}, p ∈ eraseFirstUuid u l → p ∈ l
  | [], _, _, hp => by simp [eraseFirstUuid] at hp
  | (k2, v2) :: rest, u, p, hp => by
    unfold eraseFirstUuid at hp
    by_cases hu : v2.helper.uuid = u
    · rw [if_pos hu] at hp
      exact List.mem_cons_of_mem _ hp
    · rw [if_neg hu] at hp
      rcases List.mem_cons.1 hp with h | h
      · rw [h]
        simp
      · exact List.mem_cons_of_mem _ (mem_eraseFirstUuid h)

lemma keysSortedB_eraseFirstUuid : ∀ {l : List (Int × ClipWorkflow)} (u : Nat),
    keysSortedB l = true → keysSortedB (eraseFirstUuid u l) = true
  | [], _, _ => rfl
  | (k2, v2) :: rest, u, h => by
    have hc := keysSortedB_cons h
    unfold eraseFirstUuid
    by_cases hu : v2.helper.uuid = u
    · rw [if_pos hu]
      exact hc.2
    · rw [if_neg hu]
      unfold keysSortedB
      rw [Bool.and_eq_true, List.all_eq_true]
      constructor
      · intro p hp
        exact decide_eq_true (hc.1 p (mem_eraseFirstUuid hp))
      · exact keysSortedB_eraseFirstUuid u hc.2

lemma length_eraseFirstUuid : ∀ {l : List (Int × ClipWorkflow)} {u : Nat},
    (∃ p ∈ l, p.2.helper.uuid = u) →
    (eraseFirstUuid u l).length + 1 = l.length
  | [], _, h => by simp at h
  | (k2, v2) :: rest, u, h => by
    unfold eraseFirstUuid
    by_cases hu : v2.helper.uuid = u
    · rw [if_pos hu]
      simp
    · rw [if_neg hu]
      simp only [List.length_cons]
      have hrest : ∃ p ∈ rest, p.2.helper.uuid = u := by
        obtain ⟨p, hp, hpu⟩ := h
        rcases List.mem_cons.1 hp with he | ht
        · exfalso
          apply hu
          rw [← hpu, he]
        · exact ⟨p, ht, hpu⟩
      have := length_eraseFirstUuid hrest
      omega

lemma mapLookup_eraseFirstUuid : ∀ {l : List (Int × ClipWorkflow)} {u : Nat}
    {k : Int} {w : ClipWorkflow},
    mapLookup l k = some w → w.helper.uuid ≠ u →
    mapLookup (eraseFirstUuid u l) k = some w
  | [], _, _, _, hl, _ => by simp [mapLookup] at hl
  | (k2, v2) :: rest, u, k, w, hl, hw => by
    unfold mapLookup at hl
    unfold eraseFirstUuid
    by_cases heq : k = k2
    · rw [if_pos heq] at hl
      injection hl with hl
      subst hl
      rw [if_neg hw]
      unfold mapLookup
      rw [if_pos heq]
    · rw [if_neg heq] at hl
      by_cases hu : v2.helper.uuid = u
      · rw [if_pos hu]
        exact hl
      · rw [if_neg hu]
        unfold mapLookup
        rw [if_neg heq]
        exact mapLookup_eraseFirstUuid hl hw

lemma mapLookup_mapInsert_self : ∀ (l : List (Int × ClipWorkflow)) (k : Int)
    (v : ClipWorkflow), mapLookup (mapInsert k v l) k = some v
  | [], k, v => by
    unfold mapInsert mapLookup
    rw [if_pos rfl]
  | (k2, v2) :: rest, k, v => by
    unfold mapInsert
    by_cases hlt : k < k2
    · rw [if_pos hlt]
      unfold mapLookup
      rw [if_pos rfl]
    · by_cases heq : k = k2
      · rw [if_neg hlt, if_pos heq]
        unfold mapLookup
        rw [if_pos rfl]
      · rw [if_neg hlt, if_neg heq]
        unfold mapLookup
        rw [if_neg heq]
        exact mapLookup_mapInsert_self rest k v

lemma mapLookup_mem : ∀ {l : List (Int × ClipWorkflow)} {k : Int}
    {w : ClipWorkflow}, mapLookup l k = some w → (k, w) ∈ l
  | [], _, _, hl => by simp [mapLookup] at hl
  | (k2, v2) :: rest, k, w, hl => by
    unfold mapLookup at hl
    by_cases heq : k = k2
    · rw [if_pos heq] at hl
      injection hl with hl
      rw [heq, hl]
      simp
    · rw [if_neg heq] at hl
      exact List.mem_cons_of_mem _ (mapLookup_mem hl)

lemma length_mapInsert : ∀ {l : List (Int × ClipWorkflow)} {k : Int}
    {v w : ClipWorkflow}, keysSortedB l = true → mapLookup l k = some w →
    (mapInsert k v l).length = l.length
  | [], _, _, _, _, hl => by simp [mapLookup] at hl
  | (k2, v2) :: rest, k, v, w, hs, hl => by
    have hc := keysSortedB_cons hs
    unfold mapInsert
    by_cases hlt : k < k2
    · exfalso
      rcases List.mem_cons.1 (mapLookup_mem hl) with he | ht
      · have : k = k2 := congrArg Prod.fst he
        omega
      · have : k2 < k := hc.1 (k, w) ht
        omega
    · by_cases heq : k = k2
      · rw [if_neg hlt, if_pos heq]
        simp
      · rw [if_neg hlt, if_neg heq]
        simp only [List.length_cons]
        have hrest : mapLookup rest k = some w := by
          unfold mapLookup at hl
          rw [if_neg heq] at hl
          exact hl
        rw [length_mapInsert hc.2 hrest]

lemma not_value_mapInsert : ∀ {l : List (Int × ClipWorkflow)} {k : Int}
    {v w : ClipWorkflow}, keysSortedB l = true → v ≠ w →
    (∀ p ∈ l, p.2 = w → p.1 = k) →
    ∀ p ∈ mapInsert k v l, p.2 ≠ w
  | [], k, v, w, _, hvw, _, p, hp => by
    unfold mapInsert at hp
    rcases List.mem_singleton.1 hp with he
    rw [he]
    exact hvw
  | (k2, v2) :: rest, k, v, w, hs, hvw, honly, p, hp => by
    have hc := keysSortedB_cons hs
    unfold mapInsert at hp
    by_cases hlt : k < k2
    · rw [if_pos hlt] at hp
      rcases List.mem_cons.1 hp with he | ht
      · rw [he]
        exact hvw
      · intro hpw
        have hpk := honly p ht hpw
        rcases List.mem_cons.1 ht with he2 | ht2
        · have : p.1 = k2 := congrArg Prod.fst he2
          omega
        · have : k2 < p.1 := hc.1 p ht2
          omega
    · by_cases heq : k = k2
      · rw [if_neg hlt, if_pos heq] at hp
        rcases List.mem_cons.1 hp with he | ht
        · rw [he]
          exact hvw
        · intro hpw
          have hpk := honly p (List.mem_cons_of_mem _ ht) hpw
          have : k2 < p.1 := hc.1 p ht
          omega
      · rw [if_neg hlt, if_neg heq] at hp
        rcases List.mem_cons.1 hp with he | ht
        · intro hpw
          apply heq
          have := honly (k2, v2) (by simp) (by rw [← he]; exact hpw)
          omega
        · exact not_value_mapInsert hc.2 hvw
            (fun q hq hqw => honly q (List.mem_cons_of_mem _ hq) hqw) p ht

lemma find?_uuid_eq : ∀ {l : List (Int × ClipWorkflow)} {k0 : Int}
    {cwM : ClipWorkflow} {u : Nat},
    (k0, cwM) ∈ l → cwM.helper.uuid = u →
    (∀ p ∈ l, p.2.helper.uuid = u → p = (k0, cwM)) →
    l.find? (fun p => p.2.helper.uuid = u) = some (k0, cwM)
  | [], _, _, _, hmem, _, _ => by simp at hmem
  | a :: rest, k0, cwM, u, hmem, huuid, huniq => by
    by_cases ha : a.2.helper.uuid = u
    · have hfa : List.find? (fun p => p.2.helper.uuid = u) (a :: rest) = some a :=
        List.find?_cons_of_pos rest (by simpa using ha)
      rw [hfa, huniq a (by simp) ha]
    · rw [List.find?_cons_of_neg _ (by simpa using ha)]
      have hmem2 : (k0, cwM) ∈ rest := by
        rcases List.mem_cons.1 hmem with he | ht
        · exfalso
          apply ha
          rw [← he]
          exact huuid
        · exact ht
      exact find?_uuid_eq hmem2 huuid
        (fun p hp hpu => huniq p (List.mem_cons_of_mem _ hp) hpu)

/-- Claim C10: inserting at an occupied start frame replaces the entry.
addClip at a key already holding a different clip workflow makes the key
map to the inserted workflow, keeps the clip count unchanged, and removes
the previous occupant from the mapping; moveClip of an existing clip onto
an occupied key makes the key map to the moved (resync-marked) workflow,
shrinks the clip count by one, and removes the previous occupant. -/
theorem C10_insert_replaces :
    (∀ (t : TrackWorkflow) (cw cwOld : ClipWorkflow) (s : Int),
      keysSortedB t.clips = true → mapLookup t.clips s = some cwOld → cwOld ≠ cw →
      (∀ p ∈ t.clips, p.2 = cwOld → p.1 = s) →
      mapLookup (addClip t cw s).clips s = some cw ∧
      (addClip t cw s).clips.length = t.clips.length ∧
      ∀ p ∈ (addClip t cw s).clips, p.2 ≠ cwOld) ∧
    (∀ (t : TrackWorkflow) (u : Nat) (ns k0 : Int) (cwM cwOld : ClipWorkflow),
      keysSortedB t.clips = true →
      (k0, cwM) ∈ t.clips → cwM.helper.uuid = u →
      (∀ p ∈ t.clips, p.2.helper.uuid = u → p = (k0, cwM)) →
      mapLookup t.clips ns = some cwOld → cwOld.helper.uuid ≠ u →
      (∀ p ∈ t.clips, p.2 = cwOld → p.1 = ns) →
      mapLookup (moveClip t u ns).clips ns = some (requireResync cwM) ∧
      (moveClip t u ns).clips.length + 1 = t.clips.length ∧
      ∀ p ∈ (moveClip t u ns).clips, p.2 ≠ cwOld) := by
  constructor
  · intro t cw cwOld s hs hl hne honly
    refine ⟨mapLookup_mapInsert_self t.clips s cw, length_mapInsert hs hl, ?_⟩
    exact not_value_mapInsert hs (Ne.symm hne) honly
  · intro t u ns k0 cwM cwOld hs hmem huuid huniq hlns hnsu honly
    have hfind := find?_uuid_eq hmem huuid huniq
    have hclips : (moveClip t u ns).clips =
        mapInsert ns (requireResync cwM) (eraseFirstUuid u t.clips) := by
      unfold moveClip
      rw [hfind]
    have hsE := keysSortedB_eraseFirstUuid u hs
    have hlE : mapLookup (eraseFirstUuid u t.clips) ns = some cwOld :=
      mapLookup_eraseFirstUuid hlns hnsu
    refine ⟨?_, ?_, ?_⟩
    · rw [hclips]
      exact mapLookup_mapInsert_self _ ns (requireResync cwM)
    · rw [hclips]
      have h1 := length_mapInsert (v := requireResync cwM) hsE hlE
      have h2 := length_eraseFirstUuid ⟨(k0, cwM), hmem, huuid⟩
      omega
    · rw [hclips]
      have hvne : requireResync cwM ≠ cwOld := by
        intro hEq
        apply hnsu
        rw [← hEq]
        exact huuid
      exact not_value_mapInsert hsE hvne
        (fun p hp hpw => honly p (mem_eraseFirstUuid hp) hpw)

/-- A third clip workflow (uuid 2) used to overwrite an occupied key. -/
def cwVideoD : ClipWorkflow :=
  { helper := { uuid := 2, trimBegin := 0, length := 20 },
    state := ClipState.Stopped, resyncRequired := false, fps := 25, initWorks := true }

/-- Witness for C10_insert_replaces: addClip of `cwVideoD` onto the
occupied key 100 of `trackSorted`, and moveClip of clip uuid 0 onto the
occupied key 100. -/
theorem C10_witness :
    mapLookup (addClip trackSorted cwVideoD 100).clips 100 = some cwVideoD ∧
    (addClip trackSorted cwVideoD 100).clips.length = trackSorted.clips.length ∧
    mapLookup (moveClip trackSorted 0 100).clips 100 = some (requireResync cwVideoA) ∧
    (moveClip trackSorted 0 100).clips.length + 1 = trackSorted.clips.length :=
  ⟨(C10_insert_replaces.1 trackSorted cwVideoD cwVideoB 100
      (by decide) (by decide) (by decide) (by decide)).1,
   (C10_insert_replaces.1 trackSorted cwVideoD cwVideoB 100
      (by decide) (by decide) (by decide) (by decide)).2.1,
   (C10_insert_replaces.2 trackSorted 0 100 0 cwVideoA cwVideoB
      (by decide) (by decide) (by decide) (by decide) (by decide) (by decide)
      (by decide)).1,
   (C10_insert_replaces.2 trackSorted 0 100 0 cwVideoA cwVideoB
      (by decide) (by decide) (by decide) (by decide) (by decide) (by decide)
      (by decide)).2.1⟩

end Vlmc
